import Mathlib

/-!
# STM32 I2C RFID reader: embedding of `i2c_rfid_reader.c`

The read/command logic of the firmware (`pn532_send_command`, `pn532_read_data`,
`read_rfid`, `CDC_Receive_FS`) as pure functions over an explicit device state.
The vendor services the firmware calls (`HAL_I2C_Master_Transmit`,
`HAL_I2C_Master_Receive`, `CDC_Transmit_FS`) are collaborators: the two bus
calls are answered by a `Bus` oracle, and every collaborator call is recorded,
in order and with its arguments, in the state's trace.

A character buffer is represented by its C-string content (the characters
before the terminating NUL) together with the capacity of the array that
holds it: a string `s` occupies `s.length + 1` bytes. `sprintf` and `strcat`
into a buffer are defined only while string and NUL fit the capacity; a call
that needs more is an `Overrun`, from which point the behaviour of the C
program is undefined. `read_rfid` then records the marker
`Event.Buffer_Overrun` and nothing after it.
-/

namespace RFID

/-! ## Types and constants -/

/-- A `uint8_t` value. -/
abbrev uint8_t := Fin 256

/-- Modelled from the spec: the status type of the blocking bus calls is
declared in the vendor HAL headers, which are not part of the source tree.
`HAL_OK` is the only success value; the three others are the failure
statuses (error, bus busy, timeout) of spec section 4.1 step 2. -/
inductive HAL_StatusTypeDef
  | HAL_OK
  | HAL_ERROR
  | HAL_BUSY
  | HAL_TIMEOUT
  deriving DecidableEq

open HAL_StatusTypeDef

/-- Modelled from the spec: `HAL_MAX_DELAY` is a macro of the vendor HAL
headers, absent from the source tree. Spec section 9 calls it the
"maximum-wait sentinel" of the blocking HAL-style calls; its value in the
HAL is the largest 32-bit number. -/
def HAL_MAX_DELAY : Nat := 0xFFFFFFFF

/-- Modelled from the spec: a blocking call has an upper wait bound when its
timeout argument is an explicit number of ticks, that is, when it is not the
maximum-wait sentinel (spec section 9: "no busy-infinite-wait semantics"). -/
def hasFiniteWaitBound (timeout : Nat) : Prop := timeout ≠ HAL_MAX_DELAY

instance (timeout : Nat) : Decidable (hasFiniteWaitBound timeout) := by
  unfold hasFiniteWaitBound; exact inferInstance

/-- The sensor's bus address, `#define I2C_ADDRESS 0x48`. -/
def I2C_ADDRESS : Nat := 0x48

/-- The size of the global buffer, `sizeof(uid)` for `uint8_t uid[7]`. -/
def UID_SIZE : Nat := 7

/-- The capacity of `char uidStr[32]`. -/
def UID_STR_SIZE : Nat := 32

/-- The capacity of `char temp[4]`. -/
def TEMP_SIZE : Nat := 4

/-- Return value `USBD_OK` of `CDC_Receive_FS`. -/
def USBD_OK : Nat := 0

/-- A write past the end of a character buffer: the capacity of the buffer
and the number of bytes the offending call needs in it. -/
structure Overrun where
  cap : Nat
  need : Nat
  deriving DecidableEq

/-- A call of one of the collaborators, with the arguments the firmware
passed. -/
inductive Event
  /-- A call `HAL_I2C_Master_Transmit(&hi2c1, addr, data, len, timeout)`. -/
  | I2C_Transmit (addr : Nat) (data : List uint8_t) (len : Nat) (timeout : Nat)
  /-- A call `HAL_I2C_Master_Receive(&hi2c1, addr, buf, len, timeout)`. -/
  | I2C_Receive (addr : Nat) (len : Nat) (timeout : Nat)
  /-- A call `CDC_Transmit_FS(buf, len)`: `data` is the `len` bytes handed over. -/
  | CDC_Transmit (data : List Char) (len : Nat)
  /-- Not a call: a library function wrote past the end of a character buffer
  of `cap` bytes (string and NUL need `need` bytes). The behaviour of the
  running call is undefined from here on; it records nothing further. -/
  | Buffer_Overrun (cap : Nat) (need : Nat)
  deriving DecidableEq

/-- The two-wire bus seen from the firmware: the status each blocking call
returns, and for a receive the bytes the HAL stored into the caller's
buffer. -/
structure Bus where
  transmit : Nat → List uint8_t → Nat → Nat → HAL_StatusTypeDef
  receive : Nat → Nat → Nat → HAL_StatusTypeDef × List uint8_t

/-- The firmware's state: the global `uid` buffer and the collaborator calls
made so far. -/
structure State where
  uid : List uint8_t
  trace : List Event
  deriving DecidableEq

/-! ## C library functions -/

/-- One uppercase hexadecimal digit, as `%X` prints it. -/
def hexDigitUpper (d : Nat) : Char :=
  if d < 10 then Char.ofNat (48 + d) else Char.ofNat (55 + d)

/-- The digits of `v` in base 16, most significant first (`fuel` bounds the
number of digits). -/
def hexUpperAux : Nat → Nat → List Char → List Char
  | 0, _, acc => acc
  | fuel + 1, v, acc =>
    let acc1 := hexDigitUpper (v % 16) :: acc
    if v / 16 = 0 then acc1 else hexUpperAux fuel (v / 16) acc1

/-- The conversion `%02X`: uppercase hexadecimal, padded with zeros on the
left to a width of at least two. -/
def printf_02X (v : Nat) : List Char :=
  let ds := hexUpperAux (v + 1) v []
  List.replicate (2 - ds.length) '0' ++ ds

/-- The expansion of the format `"%02X "` for the argument `v`. -/
def sprintf_02X_space (v : Nat) : List Char :=
  printf_02X v ++ [' ']

/-- The library function `strlen(s)`. -/
def strlen (s : List Char) : Nat := s.length

/-- The number of bytes of a character buffer that holding the string `s`
takes: the characters and the terminating NUL. -/
def footprint (s : List Char) : Nat := strlen s + 1

/-- The content of a buffer of `cap` bytes after `sprintf(buf, ...)` whose
format expands to `str`: defined when `str` and its NUL fit. -/
def sprintf (cap : Nat) (str : List Char) : Except Overrun (List Char) :=
  if footprint str ≤ cap then Except.ok str
  else Except.error { cap := cap, need := footprint str }

/-- The content of the buffer `dst` of `cap` bytes after `strcat(dst, src)`:
defined when the joined string and its NUL fit. -/
def strcat (cap : Nat) (dst src : List Char) : Except Overrun (List Char) :=
  if footprint (dst ++ src) ≤ cap then Except.ok (dst ++ src)
  else Except.error { cap := cap, need := footprint (dst ++ src) }

/-- The library function `strncmp(s1, s2, n)`: compares at most `n` characters, as unsigned
values, and stops after a NUL. Reading at the end of a list reads the
terminating NUL. -/
def strncmp : List Char → List Char → Nat → Int
  | _, _, 0 => 0
  | s1, s2, n + 1 =>
    let c1 := (s1.headD (Char.ofNat 0)).toNat
    let c2 := (s2.headD (Char.ofNat 0)).toNat
    if c1 ≠ c2 then (c1 : Int) - (c2 : Int)
    else if c1 = 0 then 0
    else strncmp s1.tail s2.tail n

/-! ## The firmware -/

/-- The global `uid` after the HAL stored `data` at its start. -/
def store (buf data : List uint8_t) : List uint8_t :=
  data ++ buf.drop data.length

/-- The function `pn532_send_command(cmd, len)`. -/
def pn532_send_command (bus : Bus) (cmd : List uint8_t) (len : Nat) (st : State) :
    HAL_StatusTypeDef × State :=
  (bus.transmit I2C_ADDRESS cmd len HAL_MAX_DELAY,
   { st with trace := st.trace ++ [Event.I2C_Transmit I2C_ADDRESS cmd len HAL_MAX_DELAY] })

/-- The function `pn532_read_data(uid, len)`: the data lands in the global `uid`. -/
def pn532_read_data (bus : Bus) (len : Nat) (st : State) : HAL_StatusTypeDef × State :=
  let r := bus.receive I2C_ADDRESS len HAL_MAX_DELAY
  (r.1, { uid := store st.uid (r.2.take len),
          trace := st.trace ++ [Event.I2C_Receive I2C_ADDRESS len HAL_MAX_DELAY] })

/-- The collaborator call `CDC_Transmit_FS((uint8_t*)buf, len)`. -/
def CDC_Transmit_FS (buf : List Char) (len : Nat) (st : State) : State :=
  { st with trace := st.trace ++ [Event.CDC_Transmit (buf.take len) len] }

/-- The content of `uidStr`, an array of `cap` bytes, after `n` rounds of the
conversion loop: the label written by `sprintf(uidStr, "RFID Tag ID: ")`,
then in round `i` the `sprintf(temp, "%02X ", uid[i])` into `char temp[4]`
and the `strcat(uidStr, temp)`. -/
def format_groups (cap : Nat) (uid : List uint8_t) : Nat → Except Overrun (List Char)
  | 0 => sprintf cap "RFID Tag ID: ".toList
  | i + 1 =>
    match format_groups cap uid i with
    | Except.error e => Except.error e
    | Except.ok uidStr =>
      match sprintf TEMP_SIZE (sprintf_02X_space (uid.getD i 0).val) with
      | Except.error e => Except.error e
      | Except.ok temp => strcat cap uidStr temp

/-- The content of `uidStr`, an array of `cap` bytes, when `read_rfid` is
about to hand it to the host: the loop runs for every index below
`sizeof(uid)`, then `strcat(uidStr, "\r\n")`. -/
def format_uid (cap : Nat) (uid : List uint8_t) : Except Overrun (List Char) :=
  match format_groups cap uid UID_SIZE with
  | Except.error e => Except.error e
  | Except.ok uidStr => strcat cap uidStr "\r\n".toList

/-- The execution left defined behaviour by the overrun `e`: the marker is
the last thing the call records. -/
def undefined_behaviour (e : Overrun) (st : State) : State :=
  { st with trace := st.trace ++ [Event.Buffer_Overrun e.cap e.need] }

/-- The part of `read_rfid()` that follows the return of
`pn532_send_command` with status `s1`. -/
def read_rfid_after_send (bus : Bus) (s1 : HAL_StatusTypeDef) (st1 : State) : State :=
  if s1 = HAL_OK then
    let (s2, st2) := pn532_read_data bus UID_SIZE st1
    if s2 = HAL_OK then
      match format_uid UID_STR_SIZE st2.uid with
      | Except.ok uidStr => CDC_Transmit_FS uidStr (strlen uidStr) st2
      | Except.error e => undefined_behaviour e st2
    else
      let errorMsg := "Error reading RFID data\r\n".toList
      CDC_Transmit_FS errorMsg (strlen errorMsg) st2
  else
    let errorMsg := "Error sending command to RFID\r\n".toList
    CDC_Transmit_FS errorMsg (strlen errorMsg) st1

/-- The function `read_rfid()`. -/
def read_rfid (bus : Bus) (st : State) : State :=
  let readCmd : List uint8_t := [0x02, 0x01]
  let (s1, st1) := pn532_send_command bus readCmd readCmd.length st
  read_rfid_after_send bus s1 st1

/-- The callback `CDC_Receive_FS(Buf, Len)`: `Buf` is the receive buffer, `Len` the
number of bytes the host transport declared. -/
def CDC_Receive_FS (bus : Bus) (Buf : List Char) (Len : Nat) (st : State) : Nat × State :=
  if strncmp Buf "READ_RFID".toList Len = 0 then
    (USBD_OK, read_rfid bus st)
  else
    let errorMsg := "Unknown command received\r\n".toList
    (USBD_OK, CDC_Transmit_FS errorMsg (strlen errorMsg) st)

/-! ## Observations on traces -/

/-- The messages handed to the host transport, in order. -/
def hostMessages : List Event → List (List Char)
  | [] => []
  | Event.CDC_Transmit data _ :: es => data :: hostMessages es
  | _ :: es => hostMessages es

/-- The calls that touch the two-wire bus, in order. -/
def busCalls : List Event → List Event
  | [] => []
  | Event.CDC_Transmit _ _ :: es => busCalls es
  | Event.Buffer_Overrun _ _ :: es => busCalls es
  | e :: es => e :: busCalls es

/-- The timeout argument of a bus call. -/
def Event.timeout? : Event → Option Nat
  | Event.I2C_Transmit _ _ _ t => some t
  | Event.I2C_Receive _ _ t => some t
  | Event.CDC_Transmit _ _ => none
  | Event.Buffer_Overrun _ _ => none

/-- The read request `read_rfid` puts on the bus. -/
def readRequest : Event := Event.I2C_Transmit I2C_ADDRESS [0x02, 0x01] 2 HAL_MAX_DELAY

/-- The receive call `read_rfid` makes for the identifier. -/
def readResponse : Event := Event.I2C_Receive I2C_ADDRESS 7 HAL_MAX_DELAY

/-- A bus that answers every call the same way. -/
def constBus (tx rx : HAL_StatusTypeDef) (data : List uint8_t) : Bus :=
  { transmit := fun _ _ _ _ => tx, receive := fun _ _ _ => (rx, data) }

/-- The state after reset: `uid` zero-initialised, no call made. -/
def State.init : State := { uid := List.replicate 7 0, trace := [] }

/-! ## The report as the specification words it -/

/-- The digit characters of an uppercase hexadecimal numeral. -/
def upperHexDigits : List Char := "0123456789ABCDEF".toList

/-- Two uppercase hexadecimal digits and one space for a byte. -/
def hexGroup (b : uint8_t) : List Char :=
  [upperHexDigits.getD (b.val / 16) '?', upperHexDigits.getD (b.val % 16) '?', ' ']

/-- The tag report of the specification: the fixed label, one group per
identifier byte in order, and the line terminator. -/
def tagReport (s : List uint8_t) : List Char :=
  "RFID Tag ID: ".toList ++ s.flatMap hexGroup ++ "\r\n".toList

/-- The value of an uppercase hexadecimal digit. -/
def hexVal (c : Char) : Option Nat :=
  if 48 ≤ c.toNat ∧ c.toNat ≤ 57 then some (c.toNat - 48)
  else if 65 ≤ c.toNat ∧ c.toNat ≤ 70 then some (c.toNat - 55)
  else none

/-- Decodes `n` groups of two hexadecimal digits, each followed by a space. -/
def decodeGroups : Nat → List Char → Option (List Nat)
  | 0, _ => some []
  | n + 1, hi :: lo :: sep :: rest =>
    match hexVal hi, hexVal lo, decodeGroups n rest with
    | some h, some l, some bs => if sep = ' ' then some ((16 * h + l) :: bs) else none
    | _, _, _ => none
  | _ + 1, _ => none

/-- Hex-decoding of a tag report: the seven groups that follow the
13-character label. -/
def hexDecodeReport (report : List Char) : Option (List Nat) :=
  decodeGroups 7 (report.drop 13)

/-- The hex groups of the first `n` bytes of `uid`, as the loop reads them. -/
def groupsOf (uid : List uint8_t) (n : Nat) : List Char :=
  (List.range n).flatMap (fun i => hexGroup (uid.getD i 0))

/-! ## Lemmas on traces and library functions -/

theorem hostMessages_append (xs ys : List Event) :
    hostMessages (xs ++ ys) = hostMessages xs ++ hostMessages ys := by
  induction xs with
  | nil => rfl
  | cons e es ih => cases e <;> simp [hostMessages, ih]

theorem busCalls_append (xs ys : List Event) :
    busCalls (xs ++ ys) = busCalls xs ++ busCalls ys := by
  induction xs with
  | nil => rfl
  | cons e es ih => cases e <;> simp [busCalls, ih]

theorem sprintf_02X_space_byte :
    ∀ b : uint8_t, sprintf_02X_space b.val = hexGroup b := by
  set_option maxRecDepth 100000 in decide

theorem hexGroup_no_line_break :
    ∀ b : uint8_t, '\r' ∉ hexGroup b ∧ '\n' ∉ hexGroup b := by
  set_option maxRecDepth 100000 in decide

/-- The conversion of one byte always fits `char temp[4]`. -/
theorem sprintf_temp (b : uint8_t) :
    sprintf TEMP_SIZE (sprintf_02X_space b.val) = Except.ok (hexGroup b) := by
  rw [sprintf_02X_space_byte]
  rfl

theorem groupsOf_succ (uid : List uint8_t) (n : Nat) :
    groupsOf uid (n + 1) = groupsOf uid n ++ hexGroup (uid.getD n 0) := by
  simp [groupsOf, List.range_succ, List.flatMap_append]

theorem groupsOf_length (uid : List uint8_t) (n : Nat) : (groupsOf uid n).length = 3 * n := by
  induction n with
  | zero => rfl
  | succ k ih =>
    rw [groupsOf_succ, List.length_append, ih]
    simp [hexGroup]
    omega

theorem footprint_label_groups (uid : List uint8_t) (n : Nat) :
    footprint ("RFID Tag ID: ".toList ++ groupsOf uid n) = 14 + 3 * n := by
  rw [footprint, strlen, List.length_append, groupsOf_length]
  have h : "RFID Tag ID: ".toList.length = 13 := rfl
  omega

/-! ## Lemmas on the report buffer -/

theorem format_groups_succ_of_ok (cap : Nat) (uid : List uint8_t) (n : Nat)
    (uidStr : List Char) (h : format_groups cap uid n = Except.ok uidStr) :
    format_groups cap uid (n + 1) = strcat cap uidStr (hexGroup (uid.getD n 0)) := by
  simp only [format_groups, h, sprintf_temp]

theorem format_groups_succ_of_error (cap : Nat) (uid : List uint8_t) (n : Nat)
    (e : Overrun) (h : format_groups cap uid n = Except.error e) :
    format_groups cap uid (n + 1) = Except.error e := by
  simp only [format_groups, h]

/-- In a buffer that holds the label, `n` groups and the NUL, the loop is
defined and leaves the label and the groups. -/
theorem format_groups_ok (cap : Nat) (uid : List uint8_t) :
    ∀ n : Nat, 14 + 3 * n ≤ cap →
      format_groups cap uid n = Except.ok ("RFID Tag ID: ".toList ++ groupsOf uid n)
  | 0, h => by
    have h0 : footprint "RFID Tag ID: ".toList ≤ cap := by
      have : footprint "RFID Tag ID: ".toList = 14 := rfl
      omega
    simp only [format_groups, sprintf, if_pos h0]
    rfl
  | n + 1, h => by
    have ih := format_groups_ok cap uid n (by omega)
    have hf : footprint (("RFID Tag ID: ".toList ++ groupsOf uid n) ++ hexGroup (uid.getD n 0))
        ≤ cap := by
      rw [List.append_assoc, ← groupsOf_succ, footprint_label_groups]
      exact h
    rw [format_groups_succ_of_ok cap uid n _ ih, strcat, if_pos hf, List.append_assoc,
      ← groupsOf_succ]

/-- In a smaller buffer some call of the loop overruns it. -/
theorem format_groups_error (cap : Nat) (uid : List uint8_t) :
    ∀ n : Nat, cap < 14 + 3 * n → ∃ e, format_groups cap uid n = Except.error e
  | 0, h => by
    have h0 : ¬ footprint "RFID Tag ID: ".toList ≤ cap := by
      have : footprint "RFID Tag ID: ".toList = 14 := rfl
      omega
    refine ⟨{ cap := cap, need := footprint "RFID Tag ID: ".toList }, ?_⟩
    simp only [format_groups, sprintf, if_neg h0]
  | n + 1, h => by
    by_cases hn : cap < 14 + 3 * n
    · obtain ⟨e, he⟩ := format_groups_error cap uid n hn
      exact ⟨e, format_groups_succ_of_error cap uid n e he⟩
    · have hok := format_groups_ok cap uid n (by omega)
      have hf : ¬ footprint (("RFID Tag ID: ".toList ++ groupsOf uid n)
          ++ hexGroup (uid.getD n 0)) ≤ cap := by
        rw [List.append_assoc, ← groupsOf_succ, footprint_label_groups]
        omega
      refine ⟨{ cap := cap, need := footprint (("RFID Tag ID: ".toList ++ groupsOf uid n)
          ++ hexGroup (uid.getD n 0)) }, ?_⟩
      rw [format_groups_succ_of_ok cap uid n _ hok, strcat, if_neg hf]

/-- In `char uidStr[32]` the seventh `strcat` of the loop is the overrun: it
needs 35 bytes. -/
theorem format_groups_32_7 (uid : List uint8_t) :
    format_groups UID_STR_SIZE uid 7
      = Except.error { cap := UID_STR_SIZE, need := 35 } := by
  have hok := format_groups_ok UID_STR_SIZE uid 6 (by decide)
  have hfp : footprint (("RFID Tag ID: ".toList ++ groupsOf uid 6) ++ hexGroup (uid.getD 6 0))
      = 35 := by
    rw [List.append_assoc, ← groupsOf_succ, footprint_label_groups]
  have hf : ¬ footprint (("RFID Tag ID: ".toList ++ groupsOf uid 6)
      ++ hexGroup (uid.getD 6 0)) ≤ UID_STR_SIZE := by
    rw [hfp]; decide
  rw [format_groups_succ_of_ok UID_STR_SIZE uid 6 _ hok, strcat, if_neg hf, hfp]

theorem format_uid_32 (uid : List uint8_t) :
    format_uid UID_STR_SIZE uid = Except.error { cap := UID_STR_SIZE, need := 35 } := by
  simp only [format_uid, UID_SIZE, format_groups_32_7]

theorem footprint_report (uid : List uint8_t) :
    footprint (("RFID Tag ID: ".toList ++ groupsOf uid 7) ++ "\r\n".toList) = 37 := by
  have h := footprint_label_groups uid 7
  simp only [footprint, strlen, List.length_append] at h ⊢
  have h2 : "\r\n".toList.length = 2 := rfl
  omega

/-- In a buffer of at least 37 bytes the report is built, and it is the
label, the seven groups and the line terminator. -/
theorem format_uid_ok (cap : Nat) (uid : List uint8_t) (h : 37 ≤ cap) :
    format_uid cap uid
      = Except.ok (("RFID Tag ID: ".toList ++ groupsOf uid 7) ++ "\r\n".toList) := by
  have hok := format_groups_ok cap uid 7 (by omega)
  have hf : footprint (("RFID Tag ID: ".toList ++ groupsOf uid 7) ++ "\r\n".toList) ≤ cap := by
    rw [footprint_report]; exact h
  simp only [format_uid, UID_SIZE, hok, strcat, if_pos hf]

/-- In a buffer of fewer than 37 bytes some call overruns it. -/
theorem format_uid_error (cap : Nat) (uid : List uint8_t) (h : cap < 37) :
    ∃ e, format_uid cap uid = Except.error e := by
  by_cases h7 : cap < 14 + 3 * 7
  · obtain ⟨e, he⟩ := format_groups_error cap uid 7 h7
    exact ⟨e, by simp only [format_uid, UID_SIZE, he]⟩
  · have hok := format_groups_ok cap uid 7 (by omega)
    have hf : ¬ footprint (("RFID Tag ID: ".toList ++ groupsOf uid 7) ++ "\r\n".toList)
        ≤ cap := by
      rw [footprint_report]; omega
    refine ⟨{ cap := cap, need := footprint (("RFID Tag ID: ".toList ++ groupsOf uid 7)
        ++ "\r\n".toList) }, ?_⟩
    simp only [format_uid, UID_SIZE, hok, strcat, if_neg hf]

theorem report_eq_tagReport (s r : List uint8_t) (h : s.length = 7) :
    ("RFID Tag ID: ".toList ++ groupsOf (s ++ r) 7) ++ "\r\n".toList = tagReport s := by
  match s, h with
  | [a, b, c, d, e, f, g], _ => rfl

theorem format_uid_tagReport (cap : Nat) (s : List uint8_t) (hs : s.length = 7)
    (h : 37 ≤ cap) : format_uid cap s = Except.ok (tagReport s) := by
  have h1 := format_uid_ok cap s h
  have h2 := report_eq_tagReport s [] hs
  rw [List.append_nil] at h2
  rw [h1, h2]

/-! ## Lemmas on `read_rfid` -/

theorem CDC_Transmit_FS_strlen (msg : List Char) (st : State) :
    CDC_Transmit_FS msg (strlen msg) st
      = { uid := st.uid, trace := st.trace ++ [Event.CDC_Transmit msg msg.length] } := by
  simp [CDC_Transmit_FS, strlen]

theorem read_rfid_after_send_fail (bus : Bus) (s1 : HAL_StatusTypeDef) (st1 : State)
    (h : s1 ≠ HAL_OK) :
    read_rfid_after_send bus s1 st1
      = { uid := st1.uid,
          trace := st1.trace
            ++ [Event.CDC_Transmit "Error sending command to RFID\r\n".toList 31] } := by
  simp only [read_rfid_after_send]
  rw [if_neg h, CDC_Transmit_FS_strlen]
  rfl

theorem read_rfid_after_send_rx_fail (bus : Bus) (st1 : State)
    (hrx : (bus.receive I2C_ADDRESS 7 HAL_MAX_DELAY).1 ≠ HAL_OK) :
    read_rfid_after_send bus HAL_OK st1
      = { uid := store st1.uid ((bus.receive I2C_ADDRESS 7 HAL_MAX_DELAY).2.take 7),
          trace := st1.trace ++ [readResponse,
            Event.CDC_Transmit "Error reading RFID data\r\n".toList 25] } := by
  simp only [read_rfid_after_send, pn532_read_data, UID_SIZE]
  rw [if_pos trivial, if_neg hrx, CDC_Transmit_FS_strlen]
  simp [readResponse]

theorem read_rfid_after_send_ok (bus : Bus) (st1 : State)
    (hrx : (bus.receive I2C_ADDRESS 7 HAL_MAX_DELAY).1 = HAL_OK) :
    read_rfid_after_send bus HAL_OK st1
      = { uid := store st1.uid ((bus.receive I2C_ADDRESS 7 HAL_MAX_DELAY).2.take 7),
          trace := st1.trace ++ [readResponse, Event.Buffer_Overrun UID_STR_SIZE 35] } := by
  simp only [read_rfid_after_send, pn532_read_data, UID_SIZE]
  rw [if_pos trivial, if_pos hrx]
  simp only [format_uid_32, undefined_behaviour]
  simp [readResponse]

theorem read_rfid_eq (bus : Bus) (st : State) :
    read_rfid bus st
      = read_rfid_after_send bus (bus.transmit I2C_ADDRESS [0x02, 0x01] 2 HAL_MAX_DELAY)
          { uid := st.uid, trace := st.trace ++ [readRequest] } := rfl

theorem read_rfid_tx_fail (bus : Bus) (st : State)
    (htx : bus.transmit I2C_ADDRESS [0x02, 0x01] 2 HAL_MAX_DELAY ≠ HAL_OK) :
    read_rfid bus st
      = { uid := st.uid,
          trace := st.trace ++ [readRequest,
            Event.CDC_Transmit "Error sending command to RFID\r\n".toList 31] } := by
  rw [read_rfid_eq, read_rfid_after_send_fail bus _ _ htx]
  simp

theorem read_rfid_rx_fail (bus : Bus) (st : State)
    (htx : bus.transmit I2C_ADDRESS [0x02, 0x01] 2 HAL_MAX_DELAY = HAL_OK)
    (hrx : (bus.receive I2C_ADDRESS 7 HAL_MAX_DELAY).1 ≠ HAL_OK) :
    read_rfid bus st
      = { uid := store st.uid ((bus.receive I2C_ADDRESS 7 HAL_MAX_DELAY).2.take 7),
          trace := st.trace ++ [readRequest, readResponse,
            Event.CDC_Transmit "Error reading RFID data\r\n".toList 25] } := by
  rw [read_rfid_eq, htx, read_rfid_after_send_rx_fail bus _ hrx]
  simp

/-- On the success path the defined part of `read_rfid` ends with the overrun
of `uidStr`, before `CDC_Transmit_FS` is reached. -/
theorem read_rfid_ok (bus : Bus) (st : State)
    (htx : bus.transmit I2C_ADDRESS [0x02, 0x01] 2 HAL_MAX_DELAY = HAL_OK)
    (hrx : (bus.receive I2C_ADDRESS 7 HAL_MAX_DELAY).1 = HAL_OK) :
    read_rfid bus st
      = { uid := store st.uid ((bus.receive I2C_ADDRESS 7 HAL_MAX_DELAY).2.take 7),
          trace := st.trace ++ [readRequest, readResponse,
            Event.Buffer_Overrun UID_STR_SIZE 35] } := by
  rw [read_rfid_eq, htx, read_rfid_after_send_ok bus _ hrx]
  simp

/-! ## Lemmas on hex-decoding -/

theorem hexVal_upperHexDigits :
    ∀ b : uint8_t, hexVal (upperHexDigits.getD (b.val / 16) '?') = some (b.val / 16)
      ∧ hexVal (upperHexDigits.getD (b.val % 16) '?') = some (b.val % 16) := by
  set_option maxRecDepth 100000 in decide

theorem decodeGroups_hexGroup (n : Nat) (b : uint8_t) (rest : List Char) :
    decodeGroups (n + 1) (hexGroup b ++ rest)
      = (decodeGroups n rest).map (fun bs => b.val :: bs) := by
  have hb : 16 * (b.val / 16) + b.val % 16 = b.val := Nat.div_add_mod b.val 16
  simp only [hexGroup, List.cons_append, List.nil_append, decodeGroups,
    (hexVal_upperHexDigits b).1, (hexVal_upperHexDigits b).2]
  have hnil : ([] : List Char).append rest = rest := rfl
  rw [hnil]
  cases h : decodeGroups n rest with
  | none => simp
  | some bs => simp [hb]

theorem decodeGroups_flatMap (s : List uint8_t) (rest : List Char) :
    decodeGroups s.length (s.flatMap hexGroup ++ rest) = some (s.map Fin.val) := by
  induction s with
  | nil => rfl
  | cons b bs ih =>
    rw [List.flatMap_cons, List.append_assoc, List.length_cons, decodeGroups_hexGroup, ih]
    rfl

theorem hexDecodeReport_tagReport (s : List uint8_t) (hlen : s.length = 7) :
    hexDecodeReport (tagReport s) = some (s.map Fin.val) := by
  have h := decodeGroups_flatMap s "\r\n".toList
  rw [hlen] at h
  rw [← h]
  simp only [hexDecodeReport, tagReport, List.append_assoc]
  rfl

theorem tagReport_injective (s t : List uint8_t) (hs : s.length = 7) (ht : t.length = 7)
    (h : tagReport s = tagReport t) : s = t := by
  have h1 := hexDecodeReport_tagReport s hs
  rw [h, hexDecodeReport_tagReport t ht] at h1
  exact (List.map_injective_iff.2 Fin.val_injective (Option.some.inj h1)).symm

/-! ## Lemmas on the command dispatcher -/

theorem char_eq_of_toNat_eq (a b : Char) (h : a.toNat = b.toNat) : a = b :=
  Char.ext (UInt32.toNat.inj h)

/-- Against a token without NUL characters, and within the lengths of both
strings, `strncmp` returns zero exactly when the first `n` characters agree. -/
theorem strncmp_eq_zero_iff :
    ∀ (n : Nat) (s t : List Char), (∀ c ∈ t, c.toNat ≠ 0) → n ≤ t.length → n ≤ s.length →
      (strncmp s t n = 0 ↔ s.take n = t.take n)
  | 0, _, _, _, _, _ => by simp [strncmp]
  | _ + 1, [], _, _, _, hs => by simp at hs
  | _ + 1, _ :: _, [], _, ht, _ => by simp at ht
  | n + 1, a :: s, b :: t, hnul, ht, hs => by
    have ih := strncmp_eq_zero_iff n s t (fun c hc => hnul c (List.mem_cons_of_mem _ hc))
      (by simpa using ht) (by simpa using hs)
    have hb : b.toNat ≠ 0 := hnul b (List.mem_cons_self _ _)
    by_cases hab : a.toNat = b.toNat
    · have hab1 : a = b := char_eq_of_toNat_eq a b hab
      subst hab1
      simp [strncmp, hb, ih]
    · have hab1 : a ≠ b := fun h => hab (by rw [h])
      have hab2 : (a.toNat : Int) - (b.toNat : Int) ≠ 0 := by omega
      simp [strncmp, hab, hab1, hab2]

theorem strncmp_token_9 (Buf : List Char) (hlen : 9 ≤ Buf.length) :
    strncmp Buf "READ_RFID".toList 9 = 0 ↔ Buf.take 9 = "READ_RFID".toList :=
  strncmp_eq_zero_iff 9 Buf "READ_RFID".toList (by decide) (by decide) hlen

theorem read_rfid_trace_head (bus : Bus) (st : State) :
    ∃ evs, (read_rfid bus st).trace = st.trace ++ readRequest :: evs := by
  by_cases htx : bus.transmit I2C_ADDRESS [0x02, 0x01] 2 HAL_MAX_DELAY = HAL_OK
  · by_cases hrx : (bus.receive I2C_ADDRESS 7 HAL_MAX_DELAY).1 = HAL_OK
    · exact ⟨_, congrArg State.trace (read_rfid_ok bus st htx hrx)⟩
    · exact ⟨_, congrArg State.trace (read_rfid_rx_fail bus st htx hrx)⟩
  · exact ⟨_, congrArg State.trace (read_rfid_tx_fail bus st htx)⟩

theorem read_rfid_ne_unknown (bus : Bus) (st : State) (msg : List Char) (len : Nat) :
    read_rfid bus st ≠ CDC_Transmit_FS msg len st := by
  intro h
  obtain ⟨evs, hevs⟩ := read_rfid_trace_head bus st
  rw [h] at hevs
  have h1 := List.append_cancel_left hevs
  simp [readRequest] at h1

/-- Within its own length and the token's, a command of declared length `Len`
triggers the read exactly when its `Len` bytes are the first `Len` bytes of
the token. -/
theorem CDC_Receive_FS_reads_iff (bus : Bus) (st : State) (Buf : List Char) (Len : Nat)
    (h9 : Len ≤ 9) (hlen : Len ≤ Buf.length) :
    CDC_Receive_FS bus Buf Len st = (USBD_OK, read_rfid bus st)
      ↔ Buf.take Len = "READ_RFID".toList.take Len := by
  have hiff := strncmp_eq_zero_iff Len Buf "READ_RFID".toList (by decide) h9 hlen
  constructor
  · intro h
    by_contra hne
    have h1 : ¬ strncmp Buf "READ_RFID".toList Len = 0 := fun h2 => hne (hiff.1 h2)
    unfold CDC_Receive_FS at h
    rw [if_neg h1] at h
    exact read_rfid_ne_unknown bus st _ _ (congrArg Prod.snd h).symm
  · intro h
    unfold CDC_Receive_FS
    rw [if_pos (hiff.2 h)]

/-! ## Lemmas on the preempted read -/

/-- C1, evaluated on the code: when the bus write succeeds and the bus read
succeeds returning the seven bytes `s`, the defined part of `read_rfid` is the
write, the read and then the overrun of `char uidStr[32]` by the seventh
`strcat` (35 bytes needed); no message has been handed to the host transport
at that point, so the host is not guaranteed the report. In a buffer of at
least 37 bytes the same calls build exactly the label, two uppercase
hexadecimal digits and a space per byte, and CR LF, which for
04 9A 3B FF 12 00 7E is "RFID Tag ID: 04 9A 3B FF 12 00 7E " and CR LF. -/
theorem C1_success_path_overruns_uidStr (bus : Bus) (st : State) (s : List uint8_t)
    (hlen : s.length = 7)
    (htx : bus.transmit I2C_ADDRESS [0x02, 0x01] 2 HAL_MAX_DELAY = HAL_OK)
    (hrx : bus.receive I2C_ADDRESS 7 HAL_MAX_DELAY = (HAL_OK, s)) :
    (read_rfid bus st).trace
        = st.trace ++ [Event.I2C_Transmit I2C_ADDRESS [0x02, 0x01] 2 HAL_MAX_DELAY,
            Event.I2C_Receive I2C_ADDRESS 7 HAL_MAX_DELAY,
            Event.Buffer_Overrun UID_STR_SIZE 35]
      ∧ hostMessages (read_rfid bus st).trace = hostMessages st.trace
      ∧ hostMessages (read_rfid bus st).trace ≠ hostMessages st.trace ++ [tagReport s]
      ∧ (∀ cap, 37 ≤ cap → format_uid cap s = Except.ok (tagReport s))
      ∧ tagReport [0x04, 0x9A, 0x3B, 0xFF, 0x12, 0x00, 0x7E]
          = "RFID Tag ID: 04 9A 3B FF 12 00 7E \r\n".toList := by
  have h1 : (bus.receive I2C_ADDRESS 7 HAL_MAX_DELAY).1 = HAL_OK := by rw [hrx]
  have ht := congrArg State.trace (read_rfid_ok bus st htx h1)
  simp only at ht
  have hm : hostMessages (read_rfid bus st).trace = hostMessages st.trace := by
    rw [ht, hostMessages_append]
    exact List.append_nil _
  refine ⟨ht, hm, ?_, fun cap hcap => format_uid_tagReport cap s hlen hcap, rfl⟩
  rw [hm]
  intro h
  have h2 := congrArg List.length h
  simp at h2

/-- Witness of C1: the end-to-end example of the specification, on a bus that
acknowledges the request and returns 04 9A 3B FF 12 00 7E, from the reset
state. -/
theorem C1_success_path_overruns_uidStr_witness :
    (read_rfid (constBus HAL_OK HAL_OK [0x04, 0x9A, 0x3B, 0xFF, 0x12, 0x00, 0x7E])
        State.init).trace
      = [Event.I2C_Transmit 0x48 [0x02, 0x01] 2 HAL_MAX_DELAY,
          Event.I2C_Receive 0x48 7 HAL_MAX_DELAY,
          Event.Buffer_Overrun 32 35] :=
  (C1_success_path_overruns_uidStr
    (constBus HAL_OK HAL_OK [0x04, 0x9A, 0x3B, 0xFF, 0x12, 0x00, 0x7E])
    State.init [0x04, 0x9A, 0x3B, 0xFF, 0x12, 0x00, 0x7E] rfl rfl rfl).1

/-- C4: whenever the bus transmit of the read request returns anything other
than `HAL_OK`, `read_rfid` makes no bus-receive call at all (the transmit is
the only bus call, and `uid` is untouched) and hands the host transport
exactly "Error sending command to RFID" followed by CR LF. -/
theorem C4_command_failed (bus : Bus) (st : State)
    (htx : bus.transmit I2C_ADDRESS [0x02, 0x01] 2 HAL_MAX_DELAY ≠ HAL_OK) :
    read_rfid bus st
        = { uid := st.uid,
            trace := st.trace ++ [Event.I2C_Transmit I2C_ADDRESS [0x02, 0x01] 2 HAL_MAX_DELAY,
              Event.CDC_Transmit "Error sending command to RFID\r\n".toList 31] }
      ∧ hostMessages (read_rfid bus st).trace
          = hostMessages st.trace ++ ["Error sending command to RFID\r\n".toList]
      ∧ busCalls (read_rfid bus st).trace
          = busCalls st.trace ++ [Event.I2C_Transmit I2C_ADDRESS [0x02, 0x01] 2 HAL_MAX_DELAY] := by
  have h := read_rfid_tx_fail bus st htx
  refine ⟨h, ?_, ?_⟩
  · rw [h, hostMessages_append]; rfl
  · rw [h, busCalls_append]; rfl

/-- Witness of C4: a bus that does not acknowledge the request (the transmit
returns `HAL_ERROR`); the host gets the single line and the trace holds no
receive call. -/
theorem C4_command_failed_witness :
    read_rfid (constBus HAL_ERROR HAL_OK [1, 2, 3, 4, 5, 6, 7]) State.init
      = { uid := [0, 0, 0, 0, 0, 0, 0],
          trace := [Event.I2C_Transmit 0x48 [0x02, 0x01] 2 HAL_MAX_DELAY,
            Event.CDC_Transmit "Error sending command to RFID\r\n".toList 31] } :=
  (C4_command_failed (constBus HAL_ERROR HAL_OK [1, 2, 3, 4, 5, 6, 7]) State.init
    (by decide)).1

/-- C5: whenever the bus transmit of the 2-byte read request succeeds and the
following bus receive fails, `read_rfid` makes exactly one bus-receive call,
for exactly 7 bytes at the address the request was sent to, and hands the
host transport exactly "Error reading RFID data" followed by CR LF, and
nothing else: no tag report is sent. -/
theorem C5_read_failed (bus : Bus) (st : State)
    (htx : bus.transmit I2C_ADDRESS [0x02, 0x01] 2 HAL_MAX_DELAY = HAL_OK)
    (hrx : (bus.receive I2C_ADDRESS 7 HAL_MAX_DELAY).1 ≠ HAL_OK) :
    (read_rfid bus st).trace
        = st.trace ++ [Event.I2C_Transmit I2C_ADDRESS [0x02, 0x01] 2 HAL_MAX_DELAY,
            Event.I2C_Receive I2C_ADDRESS 7 HAL_MAX_DELAY,
            Event.CDC_Transmit "Error reading RFID data\r\n".toList 25]
      ∧ hostMessages (read_rfid bus st).trace
          = hostMessages st.trace ++ ["Error reading RFID data\r\n".toList]
      ∧ busCalls (read_rfid bus st).trace
          = busCalls st.trace ++ [Event.I2C_Transmit I2C_ADDRESS [0x02, 0x01] 2 HAL_MAX_DELAY,
              Event.I2C_Receive I2C_ADDRESS 7 HAL_MAX_DELAY] := by
  have h := congrArg State.trace (read_rfid_rx_fail bus st htx hrx)
  simp only at h
  refine ⟨h, ?_, ?_⟩
  · rw [h, hostMessages_append]; rfl
  · rw [h, busCalls_append]; rfl

/-- Witness of C5: a bus that acknowledges the request and then times out on
the receive. -/
theorem C5_read_failed_witness :
    (read_rfid (constBus HAL_OK HAL_TIMEOUT []) State.init).trace
      = [Event.I2C_Transmit 0x48 [0x02, 0x01] 2 HAL_MAX_DELAY,
          Event.I2C_Receive 0x48 7 HAL_MAX_DELAY,
          Event.CDC_Transmit "Error reading RFID data\r\n".toList 25] :=
  (C5_read_failed (constBus HAL_OK HAL_TIMEOUT []) State.init rfl (by decide)).1

/-- C6, evaluated on the code: one call of `read_rfid` hands the host
transport exactly one message, a single line ending with CR LF and holding no
other carriage return or line feed, whenever the bus write or the bus read
fails; when both succeed, the defined part of the call ends with the overrun
of `uidStr` and has handed the host nothing. -/
theorem C6_line_only_on_failure (bus : Bus) (st : State) :
    ∃ evs, (read_rfid bus st).trace = st.trace ++ evs
      ∧ ((bus.transmit I2C_ADDRESS [0x02, 0x01] 2 HAL_MAX_DELAY = HAL_OK
            ∧ (bus.receive I2C_ADDRESS 7 HAL_MAX_DELAY).1 = HAL_OK) →
          hostMessages evs = [] ∧ Event.Buffer_Overrun UID_STR_SIZE 35 ∈ evs)
      ∧ (¬ (bus.transmit I2C_ADDRESS [0x02, 0x01] 2 HAL_MAX_DELAY = HAL_OK
            ∧ (bus.receive I2C_ADDRESS 7 HAL_MAX_DELAY).1 = HAL_OK) →
          ∃ body, hostMessages evs = [body ++ ['\r', '\n']]
            ∧ '\r' ∉ body ∧ '\n' ∉ body) := by
  by_cases htx : bus.transmit I2C_ADDRESS [0x02, 0x01] 2 HAL_MAX_DELAY = HAL_OK
  · by_cases hrx : (bus.receive I2C_ADDRESS 7 HAL_MAX_DELAY).1 = HAL_OK
    · refine ⟨_, congrArg State.trace (read_rfid_ok bus st htx hrx), fun _ => ⟨rfl, ?_⟩,
        fun h => absurd ⟨htx, hrx⟩ h⟩
      simp
    · exact ⟨_, congrArg State.trace (read_rfid_rx_fail bus st htx hrx),
        fun h => absurd h.2 hrx,
        fun _ => ⟨"Error reading RFID data".toList, rfl, by decide, by decide⟩⟩
  · exact ⟨_, congrArg State.trace (read_rfid_tx_fail bus st htx),
      fun h => absurd h.1 htx,
      fun _ => ⟨"Error sending command to RFID".toList, rfl, by decide, by decide⟩⟩

/-- Witness of C6: a bus that acknowledges the request and returns an
identifier; the call hands the host nothing before the overrun. -/
theorem C6_line_only_on_failure_witness :
    ∃ evs, (read_rfid (constBus HAL_OK HAL_OK [1, 2, 3, 4, 5, 6, 7]) State.init).trace
        = State.init.trace ++ evs
      ∧ hostMessages evs = [] ∧ Event.Buffer_Overrun UID_STR_SIZE 35 ∈ evs := by
  obtain ⟨evs, h1, h2, _⟩ :=
    C6_line_only_on_failure (constBus HAL_OK HAL_OK [1, 2, 3, 4, 5, 6, 7]) State.init
  exact ⟨evs, h1, h2 ⟨rfl, rfl⟩⟩

/-- C7, evaluated on the code: for a 7-byte identifier `s` the report is
never completed in `char uidStr[32]` (the seventh `strcat` overruns it), so a
successful read of `s` hands the host no report to decode; built by the same
calls in a buffer of at least 37 bytes, the report hex-decodes to the bytes of
`s`, and the report of a different 7-byte identifier differs. -/
theorem C7_no_report_to_decode (bus : Bus) (st : State) (s : List uint8_t)
    (hs : s.length = 7)
    (htx : bus.transmit I2C_ADDRESS [0x02, 0x01] 2 HAL_MAX_DELAY = HAL_OK)
    (hrx : bus.receive I2C_ADDRESS 7 HAL_MAX_DELAY = (HAL_OK, s)) :
    hostMessages (read_rfid bus st).trace = hostMessages st.trace
      ∧ format_uid UID_STR_SIZE s = Except.error { cap := UID_STR_SIZE, need := 35 }
      ∧ (∀ cap, 37 ≤ cap →
          ∃ r, format_uid cap s = Except.ok r ∧ hexDecodeReport r = some (s.map Fin.val))
      ∧ (∀ cap t, 37 ≤ cap → t.length = 7 → s ≠ t → format_uid cap s ≠ format_uid cap t) := by
  have h1 : (bus.receive I2C_ADDRESS 7 HAL_MAX_DELAY).1 = HAL_OK := by rw [hrx]
  have ht := congrArg State.trace (read_rfid_ok bus st htx h1)
  simp only at ht
  refine ⟨?_, format_uid_32 s, fun cap hcap => ⟨tagReport s,
    format_uid_tagReport cap s hs hcap, hexDecodeReport_tagReport s hs⟩, ?_⟩
  · rw [ht, hostMessages_append]
    exact List.append_nil _
  · intro cap t hcap htl hne h
    rw [format_uid_tagReport cap s hs hcap, format_uid_tagReport cap t htl hcap] at h
    exact hne (tagReport_injective s t hs htl (Except.ok.inj h))

/-- Witness of C7: the identifier 04 9A 3B FF 12 00 7E read from the reset
state. -/
theorem C7_no_report_to_decode_witness :
    hostMessages (read_rfid (constBus HAL_OK HAL_OK [0x04, 0x9A, 0x3B, 0xFF, 0x12, 0x00, 0x7E])
        State.init).trace = []
      ∧ format_uid UID_STR_SIZE [0x04, 0x9A, 0x3B, 0xFF, 0x12, 0x00, 0x7E]
          = Except.error { cap := UID_STR_SIZE, need := 35 } :=
  ⟨(C7_no_report_to_decode (constBus HAL_OK HAL_OK [0x04, 0x9A, 0x3B, 0xFF, 0x12, 0x00, 0x7E])
      State.init [0x04, 0x9A, 0x3B, 0xFF, 0x12, 0x00, 0x7E] rfl rfl rfl).1,
   (C7_no_report_to_decode (constBus HAL_OK HAL_OK [0x04, 0x9A, 0x3B, 0xFF, 0x12, 0x00, 0x7E])
      State.init [0x04, 0x9A, 0x3B, 0xFF, 0x12, 0x00, 0x7E] rfl rfl rfl).2.1⟩

/-- C2, evaluated on the code: the 7 bytes "READ_RF", a proper prefix of the
token declared with length 7, make `CDC_Receive_FS` call `read_rfid` (the
read request goes on the bus) and not send the unknown-command line. -/
theorem C2_truncated_token_performs_read (bus : Bus) (st : State) :
    CDC_Receive_FS bus "READ_RF".toList 7 st = (USBD_OK, read_rfid bus st)
      ∧ (∃ evs, (CDC_Receive_FS bus "READ_RF".toList 7 st).2.trace
          = st.trace ++ Event.I2C_Transmit I2C_ADDRESS [0x02, 0x01] 2 HAL_MAX_DELAY :: evs)
      ∧ (CDC_Receive_FS bus "READ_RF".toList 7 st).2
          ≠ { uid := st.uid,
              trace := st.trace ++ [Event.CDC_Transmit "Unknown command received\r\n".toList 26] } := by
  have h0 : strncmp "READ_RF".toList "READ_RFID".toList 7 = 0 := by decide
  have h : CDC_Receive_FS bus "READ_RF".toList 7 st = (USBD_OK, read_rfid bus st) := by
    unfold CDC_Receive_FS
    rw [if_pos h0]
  refine ⟨h, ?_, ?_⟩
  · rw [h]; exact read_rfid_trace_head bus st
  · rw [h]
    exact read_rfid_ne_unknown bus st "Unknown command received\r\n".toList 26

/-- C3: for a host command of declared length 9, `CDC_Receive_FS` calls
`read_rfid` if and only if the 9 bytes are "READ_RFID" byte for byte; for
every other 9-byte input it hands the host transport exactly one message,
"Unknown command received" followed by CR LF, makes no bus call and leaves
`uid` alone. -/
theorem C3_exact_token_dispatch (bus : Bus) (st : State) (Buf : List Char)
    (hlen : 9 ≤ Buf.length) :
    (Buf.take 9 = "READ_RFID".toList →
        CDC_Receive_FS bus Buf 9 st = (USBD_OK, read_rfid bus st))
      ∧ (Buf.take 9 ≠ "READ_RFID".toList →
          CDC_Receive_FS bus Buf 9 st
            = (USBD_OK,
                { uid := st.uid,
                  trace := st.trace
                    ++ [Event.CDC_Transmit "Unknown command received\r\n".toList 26] }))
      ∧ ((CDC_Receive_FS bus Buf 9 st).2 = read_rfid bus st ↔ Buf.take 9 = "READ_RFID".toList) := by
  have hiff := strncmp_token_9 Buf hlen
  have hyes : Buf.take 9 = "READ_RFID".toList →
      CDC_Receive_FS bus Buf 9 st = (USBD_OK, read_rfid bus st) := by
    intro h
    unfold CDC_Receive_FS
    rw [if_pos (hiff.2 h)]
  have hno : Buf.take 9 ≠ "READ_RFID".toList →
      CDC_Receive_FS bus Buf 9 st
        = (USBD_OK, CDC_Transmit_FS "Unknown command received\r\n".toList 26 st) := by
    intro h
    have h1 : ¬ strncmp Buf "READ_RFID".toList 9 = 0 := fun h2 => h (hiff.1 h2)
    simp only [CDC_Receive_FS, if_neg h1]
    rfl
  refine ⟨hyes, fun h => ?_, ?_, fun h => by rw [hyes h]⟩
  · rw [hno h]; rfl
  · intro h
    by_contra hne
    rw [hno hne] at h
    exact read_rfid_ne_unknown bus st _ _ h.symm

/-- Witness of C3: the nine bytes "read_rfid", which differ from the token
only in case, on an idle bus. -/
theorem C3_exact_token_dispatch_witness :
    CDC_Receive_FS (constBus HAL_OK HAL_OK [1, 2, 3, 4, 5, 6, 7]) "read_rfid".toList 9 State.init
      = (USBD_OK,
          { uid := [0, 0, 0, 0, 0, 0, 0],
            trace := [Event.CDC_Transmit "Unknown command received\r\n".toList 26] }) :=
  (C3_exact_token_dispatch (constBus HAL_OK HAL_OK [1, 2, 3, 4, 5, 6, 7]) State.init
    "read_rfid".toList (by decide)).2.1 (by decide)

/-- C8, as stated, fails: on a bus that acknowledges the request and returns
an identifier, it is not the case that every bus call of the read carries a
finite wait bound. -/
theorem C8_wait_bound_counterexample :
    ¬ (∀ e ∈ busCalls (read_rfid
          (constBus HAL_OK HAL_OK [0x04, 0x9A, 0x3B, 0xFF, 0x12, 0x00, 0x7E]) State.init).trace,
        ∀ t, e.timeout? = some t → hasFiniteWaitBound t) := by
  intro h
  have hmem : Event.I2C_Transmit I2C_ADDRESS [0x02, 0x01] 2 HAL_MAX_DELAY
      ∈ busCalls (read_rfid
          (constBus HAL_OK HAL_OK [0x04, 0x9A, 0x3B, 0xFF, 0x12, 0x00, 0x7E]) State.init).trace := by
    decide
  exact h _ hmem HAL_MAX_DELAY rfl rfl

/-- C8, amended: every read makes at least one bus call, and each bus call it
makes (the transmit in `pn532_send_command`, the receive in
`pn532_read_data`) is issued with the timeout `HAL_MAX_DELAY`, the
maximum-wait sentinel 0xFFFFFFFF, which is not a finite wait bound; a bus call
that does return `HAL_TIMEOUT` surfaces as the command-failed line (transmit)
or the read-failed line (receive). -/
theorem C8_bus_calls_use_max_delay (bus : Bus) (st : State) :
    ∃ evs, (read_rfid bus st).trace = st.trace ++ evs
      ∧ busCalls evs ≠ []
      ∧ (∀ e ∈ busCalls evs, e.timeout? = some HAL_MAX_DELAY)
      ∧ HAL_MAX_DELAY = 2 ^ 32 - 1
      ∧ ¬ hasFiniteWaitBound HAL_MAX_DELAY
      ∧ (bus.transmit I2C_ADDRESS [0x02, 0x01] 2 HAL_MAX_DELAY = HAL_TIMEOUT →
          hostMessages evs = ["Error sending command to RFID\r\n".toList])
      ∧ (bus.transmit I2C_ADDRESS [0x02, 0x01] 2 HAL_MAX_DELAY = HAL_OK →
          (bus.receive I2C_ADDRESS 7 HAL_MAX_DELAY).1 = HAL_TIMEOUT →
          hostMessages evs = ["Error reading RFID data\r\n".toList]) := by
  have hall : ∀ e ∈ [readRequest, readResponse], e.timeout? = some HAL_MAX_DELAY := by
    intro e he
    rcases List.mem_pair.1 he with h | h <;> rw [h] <;> rfl
  have hone : ∀ e ∈ [readRequest], e.timeout? = some HAL_MAX_DELAY := by
    intro e he
    rw [List.mem_singleton.1 he]; rfl
  by_cases htx : bus.transmit I2C_ADDRESS [0x02, 0x01] 2 HAL_MAX_DELAY = HAL_OK
  · by_cases hrx : (bus.receive I2C_ADDRESS 7 HAL_MAX_DELAY).1 = HAL_OK
    · refine ⟨_, congrArg State.trace (read_rfid_ok bus st htx hrx),
        by simp [busCalls, readRequest], hall, by decide, fun h => h rfl, ?_, ?_⟩
      · intro h; rw [htx] at h; exact absurd h (by decide)
      · intro _ h; rw [hrx] at h; exact absurd h (by decide)
    · exact ⟨_, congrArg State.trace (read_rfid_rx_fail bus st htx hrx),
        by simp [busCalls, readRequest], hall, by decide, fun h => h rfl,
        fun h => by rw [htx] at h; exact absurd h (by decide), fun _ _ => rfl⟩
  · exact ⟨_, congrArg State.trace (read_rfid_tx_fail bus st htx),
      by simp [busCalls, readRequest], hone, by decide, fun h => h rfl,
      fun _ => rfl, fun h => absurd h htx⟩

/-- Witness of C8 (amended): a bus whose transmit returns `HAL_TIMEOUT`; the
one bus call carries `HAL_MAX_DELAY` and the host gets the command-failed
line. -/
theorem C8_bus_calls_use_max_delay_witness :
    ∃ evs, (read_rfid (constBus HAL_TIMEOUT HAL_OK []) State.init).trace
        = State.init.trace ++ evs
      ∧ busCalls evs ≠ []
      ∧ (∀ e ∈ busCalls evs, e.timeout? = some HAL_MAX_DELAY)
      ∧ hostMessages evs = ["Error sending command to RFID\r\n".toList] := by
  obtain ⟨evs, h1, h2, h3, _, _, h6, _⟩ :=
    C8_bus_calls_use_max_delay (constBus HAL_TIMEOUT HAL_OK []) State.init
  exact ⟨evs, h1, h2, h3, h6 rfl⟩

/-- C10, evaluated on the code: for every content of `uid`, the calls that
build the success report need 37 bytes of `uidStr` (13 for the label, 21 for
the seven groups, 2 for the line terminator and the NUL): they are defined in
a buffer of `cap` bytes exactly when `cap` is at least 37, which the 32 bytes
of `char uidStr[32]` are not. After six rounds of the loop the string and its
NUL fill the 32 bytes exactly; the seventh `strcat`, which needs 35, is the
first write past the end. In particular for the identifier
04 9A 3B FF 12 00 7E. -/
theorem C10_uidStr_overrun :
    (∀ (uid : List uint8_t) (cap : Nat), (∃ r, format_uid cap uid = Except.ok r) ↔ 37 ≤ cap)
      ∧ (∀ uid : List uint8_t, ∃ r, format_uid 37 uid = Except.ok r
          ∧ footprint r = 13 + 3 * 7 + 2 + 1)
      ∧ ¬ 37 ≤ UID_STR_SIZE
      ∧ (∀ uid : List uint8_t, ∃ r, format_groups UID_STR_SIZE uid 6 = Except.ok r
          ∧ footprint r = UID_STR_SIZE)
      ∧ (∀ uid : List uint8_t, format_groups UID_STR_SIZE uid 7
          = Except.error { cap := UID_STR_SIZE, need := 35 })
      ∧ (∀ uid : List uint8_t, format_uid UID_STR_SIZE uid
          = Except.error { cap := UID_STR_SIZE, need := 35 })
      ∧ format_uid UID_STR_SIZE [0x04, 0x9A, 0x3B, 0xFF, 0x12, 0x00, 0x7E]
          = Except.error { cap := 32, need := 35 } := by
  refine ⟨fun uid cap => ⟨?_, fun h => ⟨_, format_uid_ok cap uid h⟩⟩,
    fun uid => ⟨_, format_uid_ok 37 uid (Nat.le_refl 37), footprint_report uid⟩,
    by decide,
    fun uid => ⟨_, format_groups_ok UID_STR_SIZE uid 6 (by decide),
      footprint_label_groups uid 6⟩,
    format_groups_32_7, format_uid_32, format_uid_32 _⟩
  rintro ⟨r, hr⟩
  by_contra hlt
  obtain ⟨e, he⟩ := format_uid_error cap uid (by omega)
  rw [he] at hr
  exact absurd hr (by simp)

end RFID
